import Mathlib

/-!
# Shallow embedding of the smart-city real-time WebSocket core

This file embeds `backend/app/services/websocket_manager.py` (the connection
registry, broadcast engine, message dispatcher and event publishers) into Lean
and proves/refutes the specification claims about it.

Modelling conventions:
* A WebSocket handle is an opaque value, represented by a natural number `WS`.
* A Python `dict` whose values are mutated sets is an association list
  `List (K × V)`: `dget` is `d.get(k)` / `k in d`, `dset` is `d[k] = v`
  (replacing in place when the key exists, appending otherwise, matching
  CPython's insertion-order semantics), `ddel` is `del d[k]`.
  `ws_to_user` and `ws_to_role` are never iterated by the code, so they are
  modelled as functions `WS → Option _` (`none` = key absent).
* Python truthiness tests on values (`if user_id and ...`, `if role and ...`,
  `if not user_id`) are modelled explicitly: an `int` is falsy iff it is `0`,
  a `str` is falsy iff it is `""`, `None` is falsy.
* A network send either succeeds or raises; which sends raise is an
  environment choice, modelled by a failure set `F : Finset WS` passed to the
  delivery functions.  The delivery functions return the new registry state and
  the list of websockets whose send succeeded, in iteration order.
* Timestamps are not part of any claim's observable behaviour except as an
  opaque "now" value, modelled by a natural number where needed.
-/

namespace SmartCity

/-- Opaque WebSocket handle (Python object identity). -/
abbrev WS := Nat

/-! ## Python dict primitives over association lists -/

/-- `d.get(k)` / `d[k]` on a Python dict: value of the first entry with key `k`. -/
def dget {K V : Type} [DecidableEq K] (d : List (K × V)) (k : K) : Option V :=
  (d.find? (fun p => decide (p.1 = k))).map (·.2)

/-- `d[k] = v` on a Python dict: replace the value in place when the key is
present (keys keep their position), append a new entry otherwise. -/
def dset {K V : Type} [DecidableEq K] (d : List (K × V)) (k : K) (v : V) : List (K × V) :=
  if (d.find? (fun p => decide (p.1 = k))).isSome then
    d.map (fun p => if p.1 = k then (k, v) else p)
  else
    d ++ [(k, v)]

/-- `del d[k]` on a Python dict. -/
def ddel {K V : Type} [DecidableEq K] (d : List (K × V)) (k : K) : List (K × V) :=
  d.filter (fun p => decide (¬ p.1 = k))

/-! ## The connection registry (`ConnectionManager.__init__`) -/

/-- State of `ConnectionManager`: the three set-valued indexes (Python dicts,
in insertion order) and the two per-websocket mappings. -/
structure ConnectionManager where
  active_connections : List (Int × Finset WS)
  role_connections : List (String × Finset WS)
  channel_subscriptions : List (String × Finset WS)
  ws_to_user : WS → Option Int
  ws_to_role : WS → Option String

/-- The freshly constructed manager: all dicts empty. -/
def emptyManager : ConnectionManager :=
  { active_connections := []
    role_connections := []
    channel_subscriptions := []
    ws_to_user := fun _ => none
    ws_to_role := fun _ => none }

/-- Outbound message payloads produced by the core (timestamp fields omitted:
they are opaque to every claim). -/
inductive OutMsg where
  | connection_status (status : String) (user_id : Int) (role : String)
  | error (message : String)
  | subscription_confirmed (channels : List String)
  | unsubscription_confirmed (channels : List String)
  | action_success (action : String) (alert_id : String)
  | alert_acknowledged (alert_id : String) (acknowledged_by : Int)
  | sensor_update (sensor_id : Int) (metric_type : String)
  | pong
  deriving DecidableEq

/-- One outbound delivery instruction: a broadcast to everyone or a personal
message to one websocket. -/
inductive Emit where
  | broadcast (msg : OutMsg)
  | personal (ws : WS) (msg : OutMsg)
  deriving DecidableEq

/-- `ConnectionManager.connect`: insert the websocket into the by-user and
by-role indexes, record the mappings, then send the confirmation message.
Returns the new state and the messages sent to `ws`, in order. -/
def ConnectionManager.connect (m : ConnectionManager) (ws : WS) (user_id : Int)
    (role : String) : ConnectionManager × List OutMsg :=
  ({ m with
      active_connections :=
        dset m.active_connections user_id
          (insert ws ((dget m.active_connections user_id).getD ∅))
      role_connections :=
        dset m.role_connections role
          (insert ws ((dget m.role_connections role).getD ∅))
      ws_to_user := fun w => if w = ws then some user_id else m.ws_to_user w
      ws_to_role := fun w => if w = ws then some role else m.ws_to_role w },
   [OutMsg.connection_status "connected" user_id role])

/-- `ConnectionManager.disconnect`.  Note the Python truthiness guards
`if user_id and user_id in self.active_connections` and
`if role and role in self.role_connections`: a user id of `0` and a role of
`""` are falsy, so those branches are skipped for them.  The channel loop
discards the websocket from every channel set but never deletes an entry. -/
def ConnectionManager.disconnect (m : ConnectionManager) (ws : WS) : ConnectionManager :=
  let user_id := m.ws_to_user ws
  let role := m.ws_to_role ws
  let ac :=
    match user_id with
    | none => m.active_connections
    | some u =>
      if u = 0 then m.active_connections
      else
        match dget m.active_connections u with
        | none => m.active_connections
        | some s =>
          let s' := s.erase ws
          if s' = ∅ then ddel m.active_connections u
          else dset m.active_connections u s'
  let rc :=
    match role with
    | none => m.role_connections
    | some r =>
      if r = "" then m.role_connections
      else
        match dget m.role_connections r with
        | none => m.role_connections
        | some s =>
          let s' := s.erase ws
          if s' = ∅ then ddel m.role_connections r
          else dset m.role_connections r s'
  { active_connections := ac
    role_connections := rc
    channel_subscriptions :=
      m.channel_subscriptions.map (fun p => (p.1, p.2.erase ws))
    ws_to_user := fun w => if w = ws then none else m.ws_to_user w
    ws_to_role := fun w => if w = ws then none else m.ws_to_role w }

/-- `ConnectionManager.subscribe_to_channel`. -/
def ConnectionManager.subscribe_to_channel (m : ConnectionManager) (ws : WS)
    (channel : String) : ConnectionManager :=
  { m with
      channel_subscriptions :=
        dset m.channel_subscriptions channel
          (insert ws ((dget m.channel_subscriptions channel).getD ∅)) }

/-- `ConnectionManager.unsubscribe_from_channel`: discard the websocket and
delete the channel entry when its set becomes empty. -/
def ConnectionManager.unsubscribe_from_channel (m : ConnectionManager) (ws : WS)
    (channel : String) : ConnectionManager :=
  match dget m.channel_subscriptions channel with
  | none => m
  | some s =>
    let s' := s.erase ws
    { m with
        channel_subscriptions :=
          if s' = ∅ then ddel m.channel_subscriptions channel
          else dset m.channel_subscriptions channel s' }

/-! ## Registry operation sequences -/

/-- The registry operations named by the spec ("register, subscribe,
unsubscribe and unregister"), mapped to the methods that implement them. -/
inductive Op where
  | register (ws : WS) (user_id : Int) (role : String)
  | subscribe (ws : WS) (channel : String)
  | unsubscribe (ws : WS) (channel : String)
  | unregister (ws : WS)
  deriving DecidableEq

/-- Apply one registry operation. -/
def step (m : ConnectionManager) : Op → ConnectionManager
  | .register ws u r => (m.connect ws u r).1
  | .subscribe ws c => m.subscribe_to_channel ws c
  | .unsubscribe ws c => m.unsubscribe_from_channel ws c
  | .unregister ws => m.disconnect ws

/-- Run a sequence of registry operations from a given state. -/
def runFrom (m : ConnectionManager) (ops : List Op) : ConnectionManager :=
  ops.foldl step m

/-- Run a sequence of registry operations from the fresh manager. -/
def run (ops : List Op) : ConnectionManager :=
  runFrom emptyManager ops

/-- A sequence is valid when every `register` respects the spec contract for
`register` (never applied to an already-registered connection) and registers a
truthy identity: a nonzero user id and a nonempty role. -/
def validFrom (m : ConnectionManager) : List Op → Bool
  | [] => true
  | op :: rest =>
    (match op with
     | .register ws u r =>
       (m.ws_to_user ws).isNone && (m.ws_to_role ws).isNone &&
         decide (u ≠ 0) && decide (r ≠ "")
     | _ => true) && validFrom (step m op) rest

/-! ## Registry predicates -/

/-- `w` belongs to no set stored in the index `d`. -/
def inNoSet {K : Type} (d : List (K × Finset WS)) (w : WS) : Prop :=
  ∀ p ∈ d, w ∉ p.2

instance {K : Type} (d : List (K × Finset WS)) (w : WS) : Decidable (inNoSet d w) :=
  List.decidableBAll _ d

/-- `w` is completely absent from the registry: from both mappings and from
every set of every index. -/
def absentEverywhere (m : ConnectionManager) (w : WS) : Prop :=
  m.ws_to_user w = none ∧ m.ws_to_role w = none ∧
    inNoSet m.active_connections w ∧ inNoSet m.role_connections w ∧
    inNoSet m.channel_subscriptions w

instance (m : ConnectionManager) (w : WS) : Decidable (absentEverywhere m w) := by
  unfold absentEverywhere
  infer_instance

/-- No entry of the topic index maps to an empty subscriber set. -/
def noEmptyChannel (m : ConnectionManager) : Prop :=
  ∀ p ∈ m.channel_subscriptions, p.2 ≠ ∅

instance (m : ConnectionManager) : Decidable (noEmptyChannel m) :=
  List.decidableBAll _ m.channel_subscriptions

/-- `w` is currently subscribed to `channel` (member of some entry for it). -/
def subscribedTo (m : ConnectionManager) (w : WS) (channel : String) : Bool :=
  m.channel_subscriptions.any (fun p => decide (p.1 = channel) && decide (w ∈ p.2))

/-! ## Lemmas about the dict primitives -/

theorem dget_cons {K V : Type} [DecidableEq K] {q : K × V} {rest : List (K × V)} {k : K} :
    dget (q :: rest) k = if q.1 = k then some q.2 else dget rest k := by
  unfold dget
  rw [List.find?_cons]
  by_cases h : q.1 = k <;> simp [h]

theorem dget_mem {K V : Type} [DecidableEq K] {d : List (K × V)} {k : K} {v : V}
    (h : dget d k = some v) : (k, v) ∈ d := by
  unfold dget at h
  obtain ⟨q, hfind, hq2⟩ := Option.map_eq_some'.mp h
  have h1 : q.1 = k := by simpa using List.find?_some hfind
  have h2 : q ∈ d := List.mem_of_find?_eq_some hfind
  have hq : q = (k, v) := by
    cases q
    simp only at h1 hq2
    rw [h1, hq2]
  exact hq ▸ h2

theorem dget_eq_none_iff {K V : Type} [DecidableEq K] {d : List (K × V)} {k : K} :
    dget d k = none ↔ ∀ p ∈ d, p.1 ≠ k := by
  unfold dget
  simp [Option.map_eq_none', List.find?_eq_none]

theorem dget_isSome_of_mem {K V : Type} [DecidableEq K] {d : List (K × V)} {p : K × V}
    (hp : p ∈ d) : (dget d p.1).isSome := by
  unfold dget
  rw [Option.isSome_map']
  exact List.find?_isSome.mpr ⟨p, hp, by simp⟩

theorem mem_dset {K V : Type} [DecidableEq K] {d : List (K × V)} {k : K} {v : V} {p : K × V}
    (hp : p ∈ dset d k v) : p = (k, v) ∨ (p ∈ d ∧ p.1 ≠ k) := by
  by_cases hc : (d.find? (fun q => decide (q.1 = k))).isSome
  · rw [dset, if_pos hc] at hp
    obtain ⟨q, hq, hmap⟩ := List.mem_map.mp hp
    by_cases h : q.1 = k
    · rw [if_pos h] at hmap
      exact Or.inl hmap.symm
    · rw [if_neg h] at hmap
      exact Or.inr ⟨hmap ▸ hq, hmap ▸ h⟩
  · rw [dset, if_neg hc] at hp
    rcases List.mem_append.mp hp with h | h
    · refine Or.inr ⟨h, ?_⟩
      have := List.find?_eq_none.mp (Option.not_isSome_iff_eq_none.mp hc) p h
      simpa using this
    · exact Or.inl (by simpa using h)

theorem mem_dset_of_ne {K V : Type} [DecidableEq K] {d : List (K × V)} {k : K} {v : V}
    {p : K × V} (hp : p ∈ d) (hne : p.1 ≠ k) : p ∈ dset d k v := by
  unfold dset
  split
  · exact List.mem_map.mpr ⟨p, hp, by rw [if_neg hne]⟩
  · exact List.mem_append.mpr (Or.inl hp)

theorem mem_dset_self {K V : Type} [DecidableEq K] {d : List (K × V)} {k : K} {v s : V}
    (h : dget d k = some s) : (k, v) ∈ dset d k v := by
  unfold dget at h
  obtain ⟨q, hfind, _⟩ := Option.map_eq_some'.mp h
  have h1 : q.1 = k := by simpa using List.find?_some hfind
  have h2 : q ∈ d := List.mem_of_find?_eq_some hfind
  unfold dset
  rw [if_pos (by rw [hfind]; rfl)]
  exact List.mem_map.mpr ⟨q, h2, by rw [if_pos h1]⟩

theorem mem_ddel {K V : Type} [DecidableEq K] {d : List (K × V)} {k : K} {p : K × V}
    (hp : p ∈ ddel d k) : p ∈ d ∧ p.1 ≠ k := by
  unfold ddel at hp
  have := List.mem_filter.mp hp
  simpa using this

theorem mem_ddel_of_ne {K V : Type} [DecidableEq K] {d : List (K × V)} {k : K} {p : K × V}
    (hp : p ∈ d) (hne : p.1 ≠ k) : p ∈ ddel d k := by
  unfold ddel
  exact List.mem_filter.mpr ⟨hp, by simpa using hne⟩

/-- Looking up a key in a dict whose values were uniformly transformed. -/
theorem dget_mapVal {K V : Type} [DecidableEq K] (d : List (K × V)) (f : V → V) (k : K) :
    dget (d.map (fun p => (p.1, f p.2))) k = (dget d k).map f := by
  induction d with
  | nil => rfl
  | cons q rest ih =>
    rw [List.map_cons, dget_cons, dget_cons]
    by_cases h : q.1 = k <;> simp [h, ih]

/-- Python dicts have unique keys; every dict reachable through `dset`/`ddel`
from the empty dict satisfies this. -/
def NodupKeys {K V : Type} (d : List (K × V)) : Prop :=
  (d.map Prod.fst).Nodup

theorem nodupKeys_nil {K V : Type} : NodupKeys ([] : List (K × V)) :=
  List.nodup_nil

theorem nodupKeys_dset {K V : Type} [DecidableEq K] {d : List (K × V)} (k : K) (v : V)
    (h : NodupKeys d) : NodupKeys (dset d k v) := by
  unfold NodupKeys dset
  split
  · rw [List.map_map]
    have he : ∀ p ∈ d, (Prod.fst ∘ fun q => if q.1 = k then (k, v) else q) p = Prod.fst p := by
      intro p _
      by_cases hpk : p.1 = k <;> simp [hpk]
    rw [List.map_congr_left he]
    exact h
  · rename_i hns
    have hk : ∀ p ∈ d, p.1 ≠ k := by
      intro p hp
      have := List.find?_eq_none.mp (Option.not_isSome_iff_eq_none.mp hns) p hp
      simpa using this
    rw [List.map_append]
    simp only [List.map_cons, List.map_nil]
    rw [List.nodup_append]
    refine ⟨h, List.nodup_singleton k, ?_⟩
    intro a ha hb
    obtain ⟨p, hp, hpa⟩ := List.mem_map.mp ha
    have : a = k := by simpa using hb
    exact hk p hp (hpa.trans this)

theorem nodupKeys_ddel {K V : Type} [DecidableEq K] {d : List (K × V)} (k : K)
    (h : NodupKeys d) : NodupKeys (ddel d k) := by
  unfold NodupKeys ddel
  exact ((List.filter_sublist d).map Prod.fst).nodup h

theorem nodupKeys_mapVal {K V : Type} {d : List (K × V)} (f : V → V)
    (h : NodupKeys d) : NodupKeys (d.map (fun p => (p.1, f p.2))) := by
  unfold NodupKeys
  rw [List.map_map]
  have he : ∀ p ∈ d, (Prod.fst ∘ fun q => (q.1, f q.2)) p = Prod.fst p := by
    intro p _
    rfl
  rw [List.map_congr_left he]
  exact h

/-- In a dict with unique keys, every entry is found by lookup of its key. -/
theorem dget_of_mem {K V : Type} [DecidableEq K] {d : List (K × V)} (hN : NodupKeys d)
    {p : K × V} (hp : p ∈ d) : dget d p.1 = some p.2 := by
  induction d with
  | nil => cases hp
  | cons q rest ih =>
    unfold NodupKeys at hN
    rw [List.map_cons, List.nodup_cons] at hN
    rcases List.mem_cons.mp hp with rfl | hrest
    · rw [dget_cons, if_pos rfl]
    · have hnk : q.1 ≠ p.1 := by
        intro he
        exact hN.1 (he ▸ List.mem_map_of_mem Prod.fst hrest)
      rw [dget_cons, if_neg hnk]
      exact ih hN.2 hrest

/-! ## The registry well-formedness invariant

Every state reachable by a valid operation sequence satisfies `WF`: the
by-user and by-role indexes agree with the `ws_to_user` / `ws_to_role`
mappings, registered identities are truthy, and the dict keys are unique. -/

structure WF (m : ConnectionManager) : Prop where
  userSound : ∀ p ∈ m.active_connections, ∀ w ∈ p.2, m.ws_to_user w = some p.1
  roleSound : ∀ p ∈ m.role_connections, ∀ w ∈ p.2, m.ws_to_role w = some p.1
  userTruthy : ∀ w u, m.ws_to_user w = some u → u ≠ 0
  roleTruthy : ∀ w r, m.ws_to_role w = some r → r ≠ ""
  userKeys : NodupKeys m.active_connections
  roleKeys : NodupKeys m.role_connections

theorem WF_empty : WF emptyManager := by
  constructor <;> first
    | exact fun p hp => absurd hp (List.not_mem_nil p)
    | exact fun w u h => absurd h (by simp [emptyManager])
    | exact nodupKeys_nil

theorem WF_connect {m : ConnectionManager} (hWF : WF m) {ws : WS} {u : Int} {r : String}
    (hu : m.ws_to_user ws = none) (hr : m.ws_to_role ws = none)
    (hu0 : u ≠ 0) (hr0 : r ≠ "") : WF (m.connect ws u r).1 := by
  constructor
  · intro p hp w hw
    rcases mem_dset hp with rfl | ⟨hpm, hpne⟩
    · simp only [ConnectionManager.connect]
      rcases Finset.mem_insert.mp hw with rfl | hws
      · simp
      · rcases hs0 : dget m.active_connections u with _ | s0
        · rw [hs0] at hw
          simp at hw
          subst hw
          simp
        · rw [hs0] at hws
          simp only [Option.getD_some] at hws
          have hold := hWF.userSound _ (dget_mem hs0) w hws
          have hwne : w ≠ ws := fun he => by rw [he, hu] at hold; cases hold
          simpa [hwne] using hold
    · have hold := hWF.userSound p hpm w hw
      have hwne : w ≠ ws := fun he => by rw [he, hu] at hold; cases hold
      simpa [ConnectionManager.connect, hwne] using hold
  · intro p hp w hw
    rcases mem_dset hp with rfl | ⟨hpm, hpne⟩
    · simp only [ConnectionManager.connect]
      rcases Finset.mem_insert.mp hw with rfl | hws
      · simp
      · rcases hs0 : dget m.role_connections r with _ | s0
        · rw [hs0] at hw
          simp at hw
          subst hw
          simp
        · rw [hs0] at hws
          simp only [Option.getD_some] at hws
          have hold := hWF.roleSound _ (dget_mem hs0) w hws
          have hwne : w ≠ ws := fun he => by rw [he, hr] at hold; cases hold
          simpa [hwne] using hold
    · have hold := hWF.roleSound p hpm w hw
      have hwne : w ≠ ws := fun he => by rw [he, hr] at hold; cases hold
      simpa [ConnectionManager.connect, hwne] using hold
  · intro w u' h
    simp only [ConnectionManager.connect] at h
    by_cases hws : w = ws
    · rw [if_pos hws] at h
      cases h
      exact hu0
    · rw [if_neg hws] at h
      exact hWF.userTruthy w u' h
  · intro w r' h
    simp only [ConnectionManager.connect] at h
    by_cases hws : w = ws
    · rw [if_pos hws] at h
      cases h
      exact hr0
    · rw [if_neg hws] at h
      exact hWF.roleTruthy w r' h
  · exact nodupKeys_dset _ _ hWF.userKeys
  · exact nodupKeys_dset _ _ hWF.roleKeys

/-- Shape of the by-user index after `disconnect`: every entry is either an
old entry or the looked-up entry of `c`'s user with `c` erased. -/
theorem disconnect_active_mem {m : ConnectionManager} {c : WS} {p : Int × Finset WS}
    (hp : p ∈ (m.disconnect c).active_connections) :
    p ∈ m.active_connections ∨
      ∃ u s, m.ws_to_user c = some u ∧ dget m.active_connections u = some s ∧
        p = (u, s.erase c) := by
  simp only [ConnectionManager.disconnect] at hp
  rcases hu : m.ws_to_user c with _ | u <;> rw [hu] at hp
  · exact Or.inl hp
  · simp only at hp
    by_cases h0 : u = 0
    · rw [if_pos h0] at hp
      exact Or.inl hp
    · rw [if_neg h0] at hp
      rcases hs : dget m.active_connections u with _ | s <;> rw [hs] at hp
      · exact Or.inl hp
      · simp only at hp
        by_cases he : s.erase c = ∅
        · rw [if_pos he] at hp
          exact Or.inl (mem_ddel hp).1
        · rw [if_neg he] at hp
          rcases mem_dset hp with rfl | ⟨hpm, _⟩
          · exact Or.inr ⟨u, s, rfl, hs, rfl⟩
          · exact Or.inl hpm

/-- Shape of the by-role index after `disconnect`. -/
theorem disconnect_role_mem {m : ConnectionManager} {c : WS} {p : String × Finset WS}
    (hp : p ∈ (m.disconnect c).role_connections) :
    p ∈ m.role_connections ∨
      ∃ r s, m.ws_to_role c = some r ∧ dget m.role_connections r = some s ∧
        p = (r, s.erase c) := by
  simp only [ConnectionManager.disconnect] at hp
  rcases hr : m.ws_to_role c with _ | r <;> rw [hr] at hp
  · exact Or.inl hp
  · simp only at hp
    by_cases h0 : r = ""
    · rw [if_pos h0] at hp
      exact Or.inl hp
    · rw [if_neg h0] at hp
      rcases hs : dget m.role_connections r with _ | s <;> rw [hs] at hp
      · exact Or.inl hp
      · simp only at hp
        by_cases he : s.erase c = ∅
        · rw [if_pos he] at hp
          exact Or.inl (mem_ddel hp).1
        · rw [if_neg he] at hp
          rcases mem_dset hp with rfl | ⟨hpm, _⟩
          · exact Or.inr ⟨r, s, rfl, hs, rfl⟩
          · exact Or.inl hpm

/-- In a well-formed registry, `disconnect c` leaves `c` in no set of the
by-user index.  (Well-formedness supplies the truthiness of `c`'s user id,
which the Python guard `if user_id and ...` needs.) -/
theorem disconnect_inNoSet_active {m : ConnectionManager} (hWF : WF m) (c : WS) :
    inNoSet (m.disconnect c).active_connections c := by
  intro p hp hc
  simp only [ConnectionManager.disconnect] at hp
  rcases hu : m.ws_to_user c with _ | u <;> rw [hu] at hp
  · have hsound := hWF.userSound p hp c hc
    rw [hsound] at hu
    cases hu
  · simp only at hp
    by_cases h0 : u = 0
    · exact absurd h0 (hWF.userTruthy c u hu)
    · rw [if_neg h0] at hp
      rcases hs : dget m.active_connections u with _ | s <;> rw [hs] at hp
      · have hsound := hWF.userSound p hp c hc
        rw [hu] at hsound
        injection hsound with h1
        have hsome := dget_isSome_of_mem hp
        rw [← h1, hs] at hsome
        cases hsome
      · simp only at hp
        by_cases he : s.erase c = ∅
        · rw [if_pos he] at hp
          have hdd := mem_ddel hp
          have hsound := hWF.userSound p hdd.1 c hc
          rw [hu] at hsound
          injection hsound with h1
          exact hdd.2 h1.symm
        · rw [if_neg he] at hp
          rcases mem_dset hp with rfl | ⟨hpm, hpne⟩
          · exact absurd hc (by simp)
          · have hsound := hWF.userSound p hpm c hc
            rw [hu] at hsound
            injection hsound with h1
            exact hpne h1.symm

/-- In a well-formed registry, `disconnect c` leaves `c` in no set of the
by-role index. -/
theorem disconnect_inNoSet_role {m : ConnectionManager} (hWF : WF m) (c : WS) :
    inNoSet (m.disconnect c).role_connections c := by
  intro p hp hc
  simp only [ConnectionManager.disconnect] at hp
  rcases hr : m.ws_to_role c with _ | r <;> rw [hr] at hp
  · have hsound := hWF.roleSound p hp c hc
    rw [hsound] at hr
    cases hr
  · simp only at hp
    by_cases h0 : r = ""
    · exact absurd h0 (hWF.roleTruthy c r hr)
    · rw [if_neg h0] at hp
      rcases hs : dget m.role_connections r with _ | s <;> rw [hs] at hp
      · have hsound := hWF.roleSound p hp c hc
        rw [hr] at hsound
        injection hsound with h1
        have hsome := dget_isSome_of_mem hp
        rw [← h1, hs] at hsome
        cases hsome
      · simp only at hp
        by_cases he : s.erase c = ∅
        · rw [if_pos he] at hp
          have hdd := mem_ddel hp
          have hsound := hWF.roleSound p hdd.1 c hc
          rw [hr] at hsound
          injection hsound with h1
          exact hdd.2 h1.symm
        · rw [if_neg he] at hp
          rcases mem_dset hp with rfl | ⟨hpm, hpne⟩
          · exact absurd hc (by simp)
          · have hsound := hWF.roleSound p hpm c hc
            rw [hr] at hsound
            injection hsound with h1
            exact hpne h1.symm

/-- `disconnect c` erases `c` from every channel set (it discards from every
entry of the topic index), with no well-formedness assumption needed. -/
theorem disconnect_inNoSet_channels (m : ConnectionManager) (c : WS) :
    inNoSet (m.disconnect c).channel_subscriptions c := by
  intro p hp hc
  simp only [ConnectionManager.disconnect] at hp
  obtain ⟨q, _, rfl⟩ := List.mem_map.mp hp
  exact absurd hc (by simp)

/-- After `disconnect c` on a well-formed registry, `c` is completely absent:
from both mappings and from every set of every index. -/
theorem disconnect_clean {m : ConnectionManager} (hWF : WF m) (c : WS) :
    absentEverywhere (m.disconnect c) c := by
  refine ⟨?_, ?_, disconnect_inNoSet_active hWF c, disconnect_inNoSet_role hWF c,
    disconnect_inNoSet_channels m c⟩
  · simp [ConnectionManager.disconnect]
  · simp [ConnectionManager.disconnect]

theorem WF_disconnect {m : ConnectionManager} (hWF : WF m) (c : WS) :
    WF (m.disconnect c) := by
  have hA := disconnect_inNoSet_active hWF c
  have hR := disconnect_inNoSet_role hWF c
  constructor
  · intro p hp w hw
    have hwc : w ≠ c := fun he => hA p hp (he ▸ hw)
    have hold : m.ws_to_user w = some p.1 := by
      rcases disconnect_active_mem hp with hpm | ⟨u, s, _, hs, rfl⟩
      · exact hWF.userSound p hpm w hw
      · exact hWF.userSound _ (dget_mem hs) w (Finset.mem_of_mem_erase hw)
    simpa [ConnectionManager.disconnect, hwc] using hold
  · intro p hp w hw
    have hwc : w ≠ c := fun he => hR p hp (he ▸ hw)
    have hold : m.ws_to_role w = some p.1 := by
      rcases disconnect_role_mem hp with hpm | ⟨r, s, _, hs, rfl⟩
      · exact hWF.roleSound p hpm w hw
      · exact hWF.roleSound _ (dget_mem hs) w (Finset.mem_of_mem_erase hw)
    simpa [ConnectionManager.disconnect, hwc] using hold
  · intro w u h
    simp only [ConnectionManager.disconnect] at h
    by_cases hwc : w = c
    · rw [if_pos hwc] at h
      cases h
    · rw [if_neg hwc] at h
      exact hWF.userTruthy w u h
  · intro w r h
    simp only [ConnectionManager.disconnect] at h
    by_cases hwc : w = c
    · rw [if_pos hwc] at h
      cases h
    · rw [if_neg hwc] at h
      exact hWF.roleTruthy w r h
  · simp only [ConnectionManager.disconnect]
    rcases m.ws_to_user c with _ | u
    · exact hWF.userKeys
    · simp only
      by_cases h0 : u = 0
      · rw [if_pos h0]
        exact hWF.userKeys
      · rw [if_neg h0]
        rcases dget m.active_connections u with _ | s
        · exact hWF.userKeys
        · simp only
          by_cases he : s.erase c = ∅
          · rw [if_pos he]
            exact nodupKeys_ddel _ hWF.userKeys
          · rw [if_neg he]
            exact nodupKeys_dset _ _ hWF.userKeys
  · simp only [ConnectionManager.disconnect]
    rcases m.ws_to_role c with _ | r
    · exact hWF.roleKeys
    · simp only
      by_cases h0 : r = ""
      · rw [if_pos h0]
        exact hWF.roleKeys
      · rw [if_neg h0]
        rcases dget m.role_connections r with _ | s
        · exact hWF.roleKeys
        · simp only
          by_cases he : s.erase c = ∅
          · rw [if_pos he]
            exact nodupKeys_ddel _ hWF.roleKeys
          · rw [if_neg he]
            exact nodupKeys_dset _ _ hWF.roleKeys

theorem WF_subscribe {m : ConnectionManager} (hWF : WF m) (ws : WS) (ch : String) :
    WF (m.subscribe_to_channel ws ch) :=
  ⟨hWF.userSound, hWF.roleSound, hWF.userTruthy, hWF.roleTruthy, hWF.userKeys, hWF.roleKeys⟩

theorem WF_unsubscribe {m : ConnectionManager} (hWF : WF m) (ws : WS) (ch : String) :
    WF (m.unsubscribe_from_channel ws ch) := by
  simp only [ConnectionManager.unsubscribe_from_channel]
  rcases dget m.channel_subscriptions ch with _ | s
  · exact hWF
  · exact ⟨hWF.userSound, hWF.roleSound, hWF.userTruthy, hWF.roleTruthy, hWF.userKeys,
      hWF.roleKeys⟩

/-- Valid operation sequences preserve registry well-formedness. -/
theorem WF_runFrom {m : ConnectionManager} (hWF : WF m) {ops : List Op}
    (hv : validFrom m ops = true) : WF (runFrom m ops) := by
  induction ops generalizing m with
  | nil => exact hWF
  | cons op rest ih =>
    have h1 : runFrom m (op :: rest) = runFrom (step m op) rest := rfl
    rw [h1]
    rcases op with ⟨ws, u, r⟩ | ⟨ws, ch⟩ | ⟨ws, ch⟩ | ws
    · simp only [validFrom, Bool.and_eq_true, decide_eq_true_eq,
        Option.isNone_iff_eq_none] at hv
      exact ih (WF_connect hWF hv.1.1.1.1 hv.1.1.1.2 hv.1.1.2 hv.1.2) hv.2
    · simp only [validFrom, Bool.true_and] at hv
      exact ih (WF_subscribe hWF ws ch) hv
    · simp only [validFrom, Bool.true_and] at hv
      exact ih (WF_unsubscribe hWF ws ch) hv
    · simp only [validFrom, Bool.true_and] at hv
      exact ih (WF_disconnect hWF ws) hv

/-- Any state reached from the fresh manager by a valid sequence is well-formed. -/
theorem WF_run {ops : List Op} (hv : validFrom emptyManager ops = true) : WF (run ops) :=
  WF_runFrom WF_empty hv

/-- Lookup after insertion finds the inserted value. -/
theorem dget_dset {K V : Type} [DecidableEq K] (d : List (K × V)) (k : K) (v : V) :
    dget (dset d k v) k = some v := by
  induction d with
  | nil =>
    simp [dset, dget]
  | cons q rest ih =>
    by_cases hq : q.1 = k
    · have hfind : (q :: rest).find? (fun p => decide (p.1 = k)) = some q := by
        rw [List.find?_cons]
        simp [hq]
      rw [dset, if_pos (by rw [hfind]; rfl), List.map_cons, if_pos hq, dget_cons]
      simp
    · have hstep : dset (q :: rest) k v = q :: dset rest k v := by
        rw [dset, dset, List.find?_cons]
        have hd : (decide (q.1 = k)) = false := by simp [hq]
        rw [hd]
        split
        · rw [List.map_cons, if_neg hq]
        · rw [List.cons_append]
      rw [hstep, dget_cons, if_neg hq]
      exact ih

/-! ## Claim C1: unregister removes the connection from every index -/

/-- **C1, counterexample.**  The claim quantifies over every user id and role,
but `disconnect` guards index removal with Python truthiness
(`if user_id and ...`, `if role and ...`): a connection registered with user
id `0` and role `""` stays in the by-user index (under key `0`) and in the
by-role index (under key `""`) after `unregister`. -/
theorem claim1_counterexample :
    ¬ (inNoSet (run [Op.register 1 0 "", Op.unregister 1]).active_connections 1 ∧
       inNoSet (run [Op.register 1 0 "", Op.unregister 1]).role_connections 1) := by
  decide

/-- **C1 (amended).**  For every sequence of register/subscribe/unsubscribe/
unregister operations in which each register respects the registry contract
(it is never applied to an already-registered connection) and registers a
truthy identity (nonzero user id, nonempty role), after `unregister(c)` the
connection `c` is a member of no set in the by-user index, no set in the
by-role index, and no set in any topic index. -/
theorem claim1_unregister_removes_from_all_indexes (ops : List Op) (c : WS)
    (hv : validFrom emptyManager ops = true) :
    inNoSet ((run ops).disconnect c).active_connections c ∧
    inNoSet ((run ops).disconnect c).role_connections c ∧
    inNoSet ((run ops).disconnect c).channel_subscriptions c := by
  have hWF := WF_run hv
  exact ⟨disconnect_inNoSet_active hWF c, disconnect_inNoSet_role hWF c,
    disconnect_inNoSet_channels _ c⟩

/-- Witness for the amended C1 at a concrete valid sequence. -/
theorem claim1_witness :
    inNoSet ((run [Op.register 1 7 "viewer", Op.subscribe 1 "sensor_42"]).disconnect 1).active_connections 1 ∧
    inNoSet ((run [Op.register 1 7 "viewer", Op.subscribe 1 "sensor_42"]).disconnect 1).role_connections 1 ∧
    inNoSet ((run [Op.register 1 7 "viewer", Op.subscribe 1 "sensor_42"]).disconnect 1).channel_subscriptions 1 :=
  claim1_unregister_removes_from_all_indexes
    [Op.register 1 7 "viewer", Op.subscribe 1 "sensor_42"] 1 (by decide)

/-! ## Claim C5: empty topic entries are garbage-collected -/

/-- **C5, counterexample.**  `unsubscribe_from_channel` does delete an entry
whose set becomes empty, but `disconnect` only discards the websocket from
every channel set and never deletes the entry: unregistering the last
subscriber of topic `"news"` leaves the key `"news"` mapped to the empty
set. -/
theorem claim5_counterexample :
    ¬ noEmptyChannel (run [Op.register 1 7 "viewer", Op.subscribe 1 "news",
        Op.unregister 1]) := by
  decide

/-- **C5 (amended).**  The invariant "no key of the topic index maps to an
empty set" is preserved by register, subscribe and unsubscribe (in
particular, unsubscribing the last subscriber deletes the topic entry), but
not by unregister: `disconnect` leaves emptied topic entries in the index. -/
theorem claim5_empty_topics_removed_except_unregister (m : ConnectionManager)
    (op : Op) (h : noEmptyChannel m) (hop : ∀ ws, op ≠ Op.unregister ws) :
    noEmptyChannel (step m op) := by
  rcases op with ⟨ws, u, r⟩ | ⟨ws, ch⟩ | ⟨ws, ch⟩ | ws
  · exact h
  · intro p hp
    rcases mem_dset hp with rfl | ⟨hpm, _⟩
    · exact Finset.insert_ne_empty ws _
    · exact h p hpm
  · intro p hp
    simp only [step, ConnectionManager.unsubscribe_from_channel] at hp
    rcases hs : dget m.channel_subscriptions ch with _ | s <;> rw [hs] at hp
    · exact h p hp
    · simp only at hp
      by_cases he : s.erase ws = ∅
      · rw [if_pos he] at hp
        exact h p (mem_ddel hp).1
      · rw [if_neg he] at hp
        rcases mem_dset hp with rfl | ⟨hpm, _⟩
        · exact he
        · exact h p hpm
  · exact absurd rfl (hop ws)

/-- Witness for the amended C5: subscribing on the fresh registry keeps the
no-empty-entry invariant. -/
theorem claim5_witness : noEmptyChannel (step emptyManager (Op.subscribe 1 "news")) :=
  claim5_empty_topics_removed_except_unregister emptyManager (Op.subscribe 1 "news")
    (by decide) (fun ws h => Op.noConfusion h)

/-! ## Claim C8: unregister of an absent connection is a no-op -/

/-- **C8 (confirmed).**  `disconnect` of a connection that is nowhere in the
registry raises no error (it is a total function) and returns the state
completely unchanged. -/
theorem claim8_disconnect_absent_is_noop (m : ConnectionManager) (c : WS)
    (h : absentEverywhere m c) : m.disconnect c = m := by
  obtain ⟨hu, hr, _, _, hC⟩ := h
  have hch : m.channel_subscriptions.map (fun p => (p.1, p.2.erase c)) =
      m.channel_subscriptions := by
    have he : ∀ p ∈ m.channel_subscriptions, (p.1, p.2.erase c) = id p := by
      intro p hp
      have h2 : p.2.erase c = p.2 := Finset.erase_eq_of_not_mem (hC p hp)
      rw [h2]
      exact Prod.mk.eta
    rw [List.map_congr_left he, List.map_id]
  have hwu : (fun w => if w = c then none else m.ws_to_user w) = m.ws_to_user := by
    funext w
    by_cases hwc : w = c
    · rw [if_pos hwc, hwc, hu]
    · rw [if_neg hwc]
  have hwr : (fun w => if w = c then none else m.ws_to_role w) = m.ws_to_role := by
    funext w
    by_cases hwc : w = c
    · rw [if_pos hwc, hwc, hr]
    · rw [if_neg hwc]
  simp only [ConnectionManager.disconnect, hu, hr, hch, hwu, hwr]

/-- Witness for C8: disconnecting a never-registered websocket from the fresh
registry changes nothing. -/
theorem claim8_witness : emptyManager.disconnect 0 = emptyManager :=
  claim8_disconnect_absent_is_noop emptyManager 0 (by decide)

/-! ## Claim C9: topic membership is not reference-counted -/

/-- **C9 (confirmed).**  Subscribing a connection to a topic twice and then
unsubscribing once leaves it unsubscribed: membership is a single set
membership per (connection, topic) pair. -/
theorem claim9_double_subscribe_single_unsubscribe (m : ConnectionManager)
    (c : WS) (ch : String) :
    subscribedTo
      (((m.subscribe_to_channel c ch).subscribe_to_channel c ch).unsubscribe_from_channel
        c ch) c ch = false := by
  rw [subscribedTo, List.any_eq_false]
  intro p hp
  simp only [Bool.and_eq_true, decide_eq_true_eq, not_and]
  intro hpc hcp
  have h2 : dget ((m.subscribe_to_channel c ch).subscribe_to_channel c ch).channel_subscriptions ch =
      some (insert c ((dget (m.subscribe_to_channel c ch).channel_subscriptions ch).getD ∅)) :=
    dget_dset _ _ _
  simp only [ConnectionManager.unsubscribe_from_channel, h2] at hp
  by_cases he : (insert c ((dget (m.subscribe_to_channel c ch).channel_subscriptions ch).getD ∅)).erase c = ∅
  · rw [if_pos he] at hp
    exact (mem_ddel hp).2 hpc
  · rw [if_neg he] at hp
    rcases mem_dset hp with rfl | ⟨_, hpne⟩
    · exact absurd hcp (Finset.not_mem_erase c _)
    · exact hpne hpc

/-! ## The broadcast engine

`broadcast` gathers the union of all by-user sets, attempts one send per
websocket, and afterwards disconnects exactly the websockets whose send
raised.  Which sends raise is the environment's choice, modelled by the
failure set `F`.  The functions are total: a per-connection failure is
consumed by the `try/except` around each send, so delivery never raises to
its caller. -/

/-- Iteration order over a Python set is unspecified; the model fixes one
concrete duplicate-free enumeration of the (opaque) websocket handles. -/
def wsList (s : Finset WS) : List WS :=
  (List.range (s.sup id + 1)).filter (fun w => decide (w ∈ s))

theorem mem_wsList {s : Finset WS} {w : WS} : w ∈ wsList s ↔ w ∈ s := by
  constructor
  · intro h
    have := List.mem_filter.mp h
    simpa using this.2
  · intro h
    rw [wsList, List.mem_filter]
    refine ⟨List.mem_range.mpr ?_, by simpa using h⟩
    have h2 : id w ≤ s.sup id := Finset.le_sup h
    exact Nat.lt_succ_of_le h2

theorem wsList_nodup (s : Finset WS) : (wsList s).Nodup :=
  (List.nodup_range _).filter _

/-- The snapshot `all_websockets` built by `ConnectionManager.broadcast`:
the union of every value of `active_connections`. -/
def allWebsockets (m : ConnectionManager) : Finset WS :=
  m.active_connections.foldl (fun acc p => acc ∪ p.2) ∅

/-- `ConnectionManager.broadcast`: send to every websocket in the snapshot
(the sends to websockets outside `F` succeed, in iteration order), then
disconnect each websocket whose send failed.  Returns the new state and the
successfully delivered recipients. -/
def ConnectionManager.broadcast (m : ConnectionManager) (F : Finset WS) :
    ConnectionManager × List WS :=
  let all := allWebsockets m
  let delivered := (wsList all).filter (fun w => decide (w ∉ F))
  let failed := (wsList all).filter (fun w => decide (w ∈ F))
  (failed.foldl ConnectionManager.disconnect m, delivered)

/-- `ConnectionManager.send_to_channel`: send to every subscriber of the
channel (no-op when the channel has no entry), then disconnect the failed
recipients. -/
def ConnectionManager.send_to_channel (m : ConnectionManager) (channel : String)
    (F : Finset WS) : ConnectionManager × List WS :=
  match dget m.channel_subscriptions channel with
  | none => (m, [])
  | some s =>
    let delivered := (wsList s).filter (fun w => decide (w ∉ F))
    let failed := (wsList s).filter (fun w => decide (w ∈ F))
    (failed.foldl ConnectionManager.disconnect m, delivered)

/-- `ConnectionManager.send_to_role`: send to every connection of the role
(no-op when the role has no entry), then disconnect the failed
recipients. -/
def ConnectionManager.send_to_role (m : ConnectionManager) (role : String)
    (F : Finset WS) : ConnectionManager × List WS :=
  match dget m.role_connections role with
  | none => (m, [])
  | some s =>
    let delivered := (wsList s).filter (fun w => decide (w ∉ F))
    let failed := (wsList s).filter (fun w => decide (w ∈ F))
    (failed.foldl ConnectionManager.disconnect m, delivered)

/-- `broadcast_sensor_update(metric)`: deliver the `sensor_update` event to
the subscribers of the generic `"sensor_updates"` topic and then to the
subscribers of the per-sensor topic `"sensor_<id>"`.  Each element of the
returned list is one delivered `sensor_update` event. -/
def broadcast_sensor_update (m : ConnectionManager) (sensor_id : Int)
    (F : Finset WS) : ConnectionManager × List WS :=
  let r1 := m.send_to_channel "sensor_updates" F
  let r2 := r1.1.send_to_channel ("sensor_" ++ toString sensor_id) F
  (r2.1, r1.2 ++ r2.2)

/-! ### Broadcast lemmas -/

theorem foldl_union_mem (l : List (Int × Finset WS)) (acc : Finset WS) (w : WS) :
    w ∈ l.foldl (fun a p => a ∪ p.2) acc ↔ w ∈ acc ∨ ∃ p ∈ l, w ∈ p.2 := by
  induction l generalizing acc with
  | nil => simp
  | cons q rest ih =>
    rw [List.foldl_cons, ih]
    simp only [Finset.mem_union, List.mem_cons]
    constructor
    · rintro ((h | h) | ⟨p, hp, hwp⟩)
      · exact Or.inl h
      · exact Or.inr ⟨q, Or.inl rfl, h⟩
      · exact Or.inr ⟨p, Or.inr hp, hwp⟩
    · rintro (h | ⟨p, rfl | hp, hwp⟩)
      · exact Or.inl (Or.inl h)
      · exact Or.inl (Or.inr hwp)
      · exact Or.inr ⟨p, hp, hwp⟩

theorem mem_allWebsockets {m : ConnectionManager} {w : WS} :
    w ∈ allWebsockets m ↔ ∃ p ∈ m.active_connections, w ∈ p.2 := by
  rw [allWebsockets, foldl_union_mem]
  simp

/-- If exactly one element of a duplicate-free list is in `F`, the filter by
`F` keeps exactly that element. -/
theorem filter_mem_eq_single {l : List WS} {F : Finset WS} {f : WS} (hN : l.Nodup)
    (hf : f ∈ l) (hone : ∀ w ∈ l, w ∈ F ↔ w = f) :
    l.filter (fun w => decide (w ∈ F)) = [f] := by
  induction l with
  | nil => cases hf
  | cons a rest ih =>
    rw [List.nodup_cons] at hN
    rcases List.mem_cons.mp hf with rfl | hfr
    · have ha : decide (f ∈ F) = true := by
        simp [(hone _ (List.mem_cons_self _ _)).mpr rfl]
      have hrest : rest.filter (fun w => decide (w ∈ F)) = [] := by
        rw [List.filter_eq_nil_iff]
        intro w hwr
        simp only [decide_eq_true_eq]
        intro hwF
        exact hN.1 (((hone w (List.mem_cons_of_mem _ hwr)).mp hwF) ▸ hwr)
      rw [List.filter_cons, ha, if_pos rfl, hrest]
    · have haf : a ≠ f := fun he => hN.1 (he ▸ hfr)
      have ha : decide (a ∈ F) = false := by
        simp only [decide_eq_false_iff_not]
        intro haF
        exact haf ((hone a (List.mem_cons_self a rest)).mp haF)
      rw [List.filter_cons, ha, if_neg Bool.false_ne_true]
      exact ih hN.2 hfr (fun w hw => hone w (List.mem_cons_of_mem a hw))

/-- Members other than `f` survive `disconnect f` in the by-user index, with
the same key. -/
theorem disconnect_active_mem_rev {m : ConnectionManager} (hWF : WF m) (f : WS)
    {p : Int × Finset WS} (hp : p ∈ m.active_connections) {w : WS} (hw : w ∈ p.2)
    (hwf : w ≠ f) :
    ∃ q ∈ (m.disconnect f).active_connections, q.1 = p.1 ∧ w ∈ q.2 := by
  simp only [ConnectionManager.disconnect]
  rcases hu : m.ws_to_user f with _ | u
  · exact ⟨p, hp, rfl, hw⟩
  · simp only
    by_cases h0 : u = 0
    · rw [if_pos h0]
      exact ⟨p, hp, rfl, hw⟩
    · rw [if_neg h0]
      rcases hs : dget m.active_connections u with _ | s
      · exact ⟨p, hp, rfl, hw⟩
      · simp only
        by_cases hpu : p.1 = u
        · have hpv : some p.2 = some s := by
            rw [← hs, ← hpu, dget_of_mem hWF.userKeys hp]
          injection hpv with hpv
          have hws : w ∈ s.erase f := Finset.mem_erase.mpr ⟨hwf, hpv ▸ hw⟩
          by_cases he : s.erase f = ∅
          · rw [he] at hws
            exact absurd hws (Finset.not_mem_empty w)
          · rw [if_neg he]
            exact ⟨(u, s.erase f), mem_dset_self hs, hpu.symm, hws⟩
        · by_cases he : s.erase f = ∅
          · rw [if_pos he]
            exact ⟨p, mem_ddel_of_ne hp hpu, rfl, hw⟩
          · rw [if_neg he]
            exact ⟨p, mem_dset_of_ne hp hpu, rfl, hw⟩

/-- Members other than `f` survive `disconnect f` in the by-role index, with
the same key. -/
theorem disconnect_role_mem_rev {m : ConnectionManager} (hWF : WF m) (f : WS)
    {p : String × Finset WS} (hp : p ∈ m.role_connections) {w : WS} (hw : w ∈ p.2)
    (hwf : w ≠ f) :
    ∃ q ∈ (m.disconnect f).role_connections, q.1 = p.1 ∧ w ∈ q.2 := by
  simp only [ConnectionManager.disconnect]
  rcases hr : m.ws_to_role f with _ | r
  · exact ⟨p, hp, rfl, hw⟩
  · simp only
    by_cases h0 : r = ""
    · rw [if_pos h0]
      exact ⟨p, hp, rfl, hw⟩
    · rw [if_neg h0]
      rcases hs : dget m.role_connections r with _ | s
      · exact ⟨p, hp, rfl, hw⟩
      · simp only
        by_cases hpr : p.1 = r
        · have hpv : some p.2 = some s := by
            rw [← hs, ← hpr, dget_of_mem hWF.roleKeys hp]
          injection hpv with hpv
          have hws : w ∈ s.erase f := Finset.mem_erase.mpr ⟨hwf, hpv ▸ hw⟩
          by_cases he : s.erase f = ∅
          · rw [he] at hws
            exact absurd hws (Finset.not_mem_empty w)
          · rw [if_neg he]
            exact ⟨(r, s.erase f), mem_dset_self hs, hpr.symm, hws⟩
        · by_cases he : s.erase f = ∅
          · rw [if_pos he]
            exact ⟨p, mem_ddel_of_ne hp hpr, rfl, hw⟩
          · rw [if_neg he]
            exact ⟨p, mem_dset_of_ne hp hpr, rfl, hw⟩

/-! ## Claim C2: one failing send during a broadcast -/

/-- **C2, counterexample.**  The claim requires the failing connection to be
absent from the registry after the broadcast, but `disconnect` skips the
by-user index for a falsy (zero) user id: broadcasting to a registry whose
single connection belongs to user `0`, with that send failing, leaves the
connection in the by-user index. -/
theorem claim2_counterexample :
    ¬ inNoSet
        (((ConnectionManager.connect emptyManager 5 0 "viewer").1.broadcast
          {5}).1).active_connections 5 := by
  decide

/-- **C2 (amended).**  For every well-formed registry (indexes consistent
with the connection-to-user/role mappings and identities truthy, as the
registration API establishes) and for both cited delivery paths — the
all-selector `broadcast` and the role selector `send_to_role` — if exactly
one connection `f` of the delivery snapshot fails its send, then every other
snapshot connection is delivered the event, the resulting state is exactly
`disconnect f` (so only the failing connection is touched), every other
connection keeps its user and role registration and its index membership,
and `f` itself is absent from every index afterwards.  Both delivery
functions are total: they raise nothing to their caller. -/
theorem claim2_single_send_failure (m : ConnectionManager) (F : Finset WS)
    (f : WS) (hWF : WF m) :
    (f ∈ allWebsockets m → (∀ w ∈ allWebsockets m, w ∈ F ↔ w = f) →
      (∀ w ∈ allWebsockets m, w ≠ f → w ∈ (m.broadcast F).2) ∧
      (m.broadcast F).1 = m.disconnect f ∧
      (∀ w, w ≠ f → (m.broadcast F).1.ws_to_user w = m.ws_to_user w ∧
        (m.broadcast F).1.ws_to_role w = m.ws_to_role w) ∧
      (∀ w ∈ allWebsockets m, w ≠ f → w ∈ allWebsockets (m.broadcast F).1) ∧
      absentEverywhere (m.broadcast F).1 f) ∧
    (∀ role s, dget m.role_connections role = some s → f ∈ s →
      (∀ w ∈ s, w ∈ F ↔ w = f) →
      (∀ w ∈ s, w ≠ f → w ∈ (m.send_to_role role F).2) ∧
      (m.send_to_role role F).1 = m.disconnect f ∧
      (∀ w, w ≠ f → (m.send_to_role role F).1.ws_to_user w = m.ws_to_user w ∧
        (m.send_to_role role F).1.ws_to_role w = m.ws_to_role w) ∧
      (∀ w ∈ s, w ≠ f →
        ∃ q ∈ (m.send_to_role role F).1.role_connections, q.1 = role ∧ w ∈ q.2) ∧
      absentEverywhere (m.send_to_role role F).1 f) := by
  constructor
  · intro hf hone
    have hfail : (wsList (allWebsockets m)).filter (fun w => decide (w ∈ F)) = [f] :=
      filter_mem_eq_single (wsList_nodup _) (mem_wsList.mpr hf)
        (fun w hw => hone w (mem_wsList.mp hw))
    have hstate : (m.broadcast F).1 = m.disconnect f := by
      simp only [ConnectionManager.broadcast, hfail]
      rfl
    refine ⟨?_, hstate, ?_, ?_, ?_⟩
    · intro w hw hwf
      simp only [ConnectionManager.broadcast]
      rw [List.mem_filter]
      refine ⟨mem_wsList.mpr hw, ?_⟩
      simp only [decide_eq_true_eq]
      intro hwF
      exact hwf ((hone w hw).mp hwF)
    · intro w hwf
      rw [hstate]
      exact ⟨by simp [ConnectionManager.disconnect, hwf], by
        simp [ConnectionManager.disconnect, hwf]⟩
    · intro w hw hwf
      rw [hstate, mem_allWebsockets] at *
      obtain ⟨p, hp, hwp⟩ := hw
      obtain ⟨q, hq, _, hwq⟩ := disconnect_active_mem_rev hWF f hp hwp hwf
      exact ⟨q, hq, hwq⟩
    · rw [hstate]
      exact disconnect_clean hWF f
  · intro role s hs hfs honer
    have hfail : (wsList s).filter (fun w => decide (w ∈ F)) = [f] :=
      filter_mem_eq_single (wsList_nodup _) (mem_wsList.mpr hfs)
        (fun w hw => honer w (mem_wsList.mp hw))
    have hstate : (m.send_to_role role F).1 = m.disconnect f := by
      simp only [ConnectionManager.send_to_role, hs, hfail]
      rfl
    refine ⟨?_, hstate, ?_, ?_, ?_⟩
    · intro w hw hwf
      simp only [ConnectionManager.send_to_role, hs]
      rw [List.mem_filter]
      refine ⟨mem_wsList.mpr hw, ?_⟩
      simp only [decide_eq_true_eq]
      intro hwF
      exact hwf ((honer w hw).mp hwF)
    · intro w hwf
      rw [hstate]
      exact ⟨by simp [ConnectionManager.disconnect, hwf], by
        simp [ConnectionManager.disconnect, hwf]⟩
    · intro w hw hwf
      obtain ⟨q, hq, hq1, hwq⟩ :=
        disconnect_role_mem_rev hWF f (dget_mem hs) hw hwf
      rw [hstate]
      exact ⟨q, hq, hq1, hwq⟩
    · rw [hstate]
      exact disconnect_clean hWF f

/-- Witness for the amended C2, exercising both delivery paths: two
connections of role `"a"`, the send to the second one fails. -/
theorem claim2_witness :
    ((run [Op.register 7 1 "a", Op.register 8 2 "a"]).broadcast {8}).1 =
      (run [Op.register 7 1 "a", Op.register 8 2 "a"]).disconnect 8 ∧
    7 ∈ ((run [Op.register 7 1 "a", Op.register 8 2 "a"]).broadcast {8}).2 ∧
    absentEverywhere ((run [Op.register 7 1 "a", Op.register 8 2 "a"]).broadcast
      {8}).1 8 ∧
    ((run [Op.register 7 1 "a", Op.register 8 2 "a"]).send_to_role "a" {8}).1 =
      (run [Op.register 7 1 "a", Op.register 8 2 "a"]).disconnect 8 ∧
    7 ∈ ((run [Op.register 7 1 "a", Op.register 8 2 "a"]).send_to_role "a" {8}).2 ∧
    absentEverywhere ((run [Op.register 7 1 "a",
      Op.register 8 2 "a"]).send_to_role "a" {8}).1 8 := by
  have h := claim2_single_send_failure
    (run [Op.register 7 1 "a", Op.register 8 2 "a"]) {8} 8 (WF_run (by decide))
  have hb := h.1 (by decide) (by decide)
  have hr := h.2 "a" (insert 8 {7}) rfl (by decide) (by decide)
  exact ⟨hb.2.1, hb.1 7 (by decide) (by decide), hb.2.2.2.2, hr.2.1,
    hr.1 7 (by decide) (by decide), hr.2.2.2.2⟩

/-! ### Channel delivery lemmas -/

theorem dget_channels_disconnect (m : ConnectionManager) (f : WS) (ch : String) :
    dget (m.disconnect f).channel_subscriptions ch =
      (dget m.channel_subscriptions ch).map (fun s => s.erase f) := by
  simp only [ConnectionManager.disconnect]
  exact dget_mapVal m.channel_subscriptions (fun s => s.erase f) ch

theorem dget_channels_foldl (l : List WS) (m : ConnectionManager) (ch : String) :
    dget ((l.foldl ConnectionManager.disconnect m).channel_subscriptions) ch =
      (dget m.channel_subscriptions ch).map
        (fun s => l.foldl (fun t w => t.erase w) s) := by
  induction l generalizing m with
  | nil => cases hd : dget m.channel_subscriptions ch <;> simp [hd]
  | cons a rest ih =>
    rw [List.foldl_cons, ih, dget_channels_disconnect]
    cases dget m.channel_subscriptions ch <;> rfl

theorem mem_foldl_erase (l : List WS) (s : Finset WS) (c : WS) :
    c ∈ l.foldl (fun t w => t.erase w) s ↔ c ∈ s ∧ c ∉ l := by
  induction l generalizing s with
  | nil => simp
  | cons a rest ih =>
    rw [List.foldl_cons, ih]
    simp only [Finset.mem_erase, List.mem_cons]
    constructor
    · rintro ⟨⟨hne, hs⟩, hr⟩
      refine ⟨hs, ?_⟩
      rintro (rfl | hcr)
      · exact hne rfl
      · exact hr hcr
    · rintro ⟨hs, hn⟩
      exact ⟨⟨fun he => hn (Or.inl he), hs⟩, fun hcr => hn (Or.inr hcr)⟩

theorem count_filter_notin (s : Finset WS) (F : Finset WS) (c : WS) :
    ((wsList s).filter (fun w => decide (w ∉ F))).count c =
      if c ∈ s ∧ c ∉ F then 1 else 0 := by
  by_cases h1 : c ∈ s
  · by_cases h2 : c ∉ F
    · rw [if_pos ⟨h1, h2⟩]
      refine List.count_eq_one_of_mem ((wsList_nodup s).filter _) ?_
      rw [List.mem_filter]
      exact ⟨mem_wsList.mpr h1, by simpa using h2⟩
    · rw [if_neg (fun h => h2 h.2), List.count_eq_zero]
      intro hmem
      exact h2 (by simpa using (List.mem_filter.mp hmem).2)
  · rw [if_neg (fun h => h1 h.1), List.count_eq_zero]
    intro hmem
    exact h1 (mem_wsList.mp (List.mem_filter.mp hmem).1)

theorem send_to_channel_count_some {m : ConnectionManager} {ch : String}
    {F : Finset WS} {s : Finset WS}
    (hs : dget m.channel_subscriptions ch = some s) (c : WS) :
    (m.send_to_channel ch F).2.count c = if c ∈ s ∧ c ∉ F then 1 else 0 := by
  simp only [ConnectionManager.send_to_channel, hs]
  exact count_filter_notin s F c

theorem send_to_channel_count_none {m : ConnectionManager} {ch : String}
    {F : Finset WS} (hs : dget m.channel_subscriptions ch = none) (c : WS) :
    (m.send_to_channel ch F).2.count c = 0 := by
  simp only [ConnectionManager.send_to_channel, hs]
  rfl

/-- A delivered recipient of `send_to_channel` was a subscriber of that
channel whose send did not fail. -/
theorem send_to_channel_mem {m : ConnectionManager} {ch : String} {F : Finset WS}
    {w : WS} (hw : w ∈ (m.send_to_channel ch F).2) :
    ∃ s, dget m.channel_subscriptions ch = some s ∧ w ∈ s ∧ w ∉ F := by
  simp only [ConnectionManager.send_to_channel] at hw
  rcases hs : dget m.channel_subscriptions ch with _ | s <;> rw [hs] at hw
  · cases hw
  · have h2 := List.mem_filter.mp hw
    exact ⟨s, rfl, mem_wsList.mp h2.1, by simpa using h2.2⟩

/-- `send_to_channel` only erases failed websockets from the topic index:
looking up any channel afterwards gives the old set with some websockets of
`F` erased. -/
theorem send_to_channel_channels (m : ConnectionManager) (ch : String)
    (F : Finset WS) (ch2 : String) :
    ∃ l : List WS, (∀ w ∈ l, w ∈ F) ∧
      dget (m.send_to_channel ch F).1.channel_subscriptions ch2 =
        (dget m.channel_subscriptions ch2).map
          (fun s => l.foldl (fun t w => t.erase w) s) := by
  simp only [ConnectionManager.send_to_channel]
  rcases dget m.channel_subscriptions ch with _ | s
  · refine ⟨[], by simp, ?_⟩
    cases dget m.channel_subscriptions ch2 <;> rfl
  · refine ⟨(wsList s).filter (fun w => decide (w ∈ F)), ?_, dget_channels_foldl _ _ _⟩
    intro w hw
    simpa using (List.mem_filter.mp hw).2

/-! ## Claim C7: sensor updates go only to topic subscribers -/

/-- **C7 (confirmed).**  A published sensor-update for sensor `id` is
delivered only to subscribers of the generic `"sensor_updates"` topic or of
the per-sensor topic `"sensor_<id>"`; a connection subscribed only to
`"sensor_42"` (and whose own send does not fail) receives exactly one
`sensor_update` event for a sensor-42 metric and none for a sensor-99
metric. -/
theorem claim7_sensor_update_only_to_subscribers (m : ConnectionManager)
    (c : WS) (F : Finset WS) (s42 : Finset WS)
    (h42 : dget m.channel_subscriptions "sensor_42" = some s42) (hc : c ∈ s42)
    (honly : ∀ p ∈ m.channel_subscriptions, c ∈ p.2 → p.1 = "sensor_42")
    (hF : c ∉ F) :
    (broadcast_sensor_update m 42 F).2.count c = 1 ∧
    (broadcast_sensor_update m 99 F).2.count c = 0 ∧
    (∀ sid : Int, ∀ w ∈ (broadcast_sensor_update m sid F).2,
      ∃ p ∈ m.channel_subscriptions,
        (p.1 = "sensor_updates" ∨ p.1 = "sensor_" ++ toString sid) ∧ w ∈ p.2) := by
  have hch42 : ("sensor_" ++ toString (42 : Int)) = "sensor_42" := by decide
  have hch99 : ("sensor_" ++ toString (99 : Int)) = "sensor_99" := by decide
  have hne_upd : ("sensor_updates" : String) ≠ "sensor_42" := by decide
  have hne_99 : ("sensor_99" : String) ≠ "sensor_42" := by decide
  have hcount1 : (m.send_to_channel "sensor_updates" F).2.count c = 0 := by
    rcases hupd : dget m.channel_subscriptions "sensor_updates" with _ | s0
    · exact send_to_channel_count_none hupd c
    · rw [send_to_channel_count_some hupd c, if_neg]
      rintro ⟨hc0, _⟩
      exact hne_upd (honly _ (dget_mem hupd) hc0)
  refine ⟨?_, ?_, ?_⟩
  · obtain ⟨l1, hl1, hdg⟩ :=
      send_to_channel_channels m "sensor_updates" F "sensor_42"
    rw [h42] at hdg
    simp only [Option.map_some'] at hdg
    have hcin : c ∈ l1.foldl (fun t w => t.erase w) s42 :=
      (mem_foldl_erase _ _ _).mpr ⟨hc, fun hcl => hF (hl1 c hcl)⟩
    have hcnt2 : ((m.send_to_channel "sensor_updates" F).1.send_to_channel
        "sensor_42" F).2.count c = 1 := by
      rw [send_to_channel_count_some hdg c, if_pos ⟨hcin, hF⟩]
    simp only [broadcast_sensor_update, List.count_append, hch42]
    rw [hcount1, hcnt2]
  · obtain ⟨l1, hl1, hdg⟩ :=
      send_to_channel_channels m "sensor_updates" F "sensor_99"
    rcases h99 : dget m.channel_subscriptions "sensor_99" with _ | s9 <;>
      rw [h99] at hdg
    · simp only [Option.map_none'] at hdg
      have hcnt2 : ((m.send_to_channel "sensor_updates" F).1.send_to_channel
          "sensor_99" F).2.count c = 0 := send_to_channel_count_none hdg c
      simp only [broadcast_sensor_update, List.count_append, hch99]
      rw [hcount1, hcnt2]
    · simp only [Option.map_some'] at hdg
      have hcnt2 : ((m.send_to_channel "sensor_updates" F).1.send_to_channel
          "sensor_99" F).2.count c = 0 := by
        rw [send_to_channel_count_some hdg c, if_neg]
        rintro ⟨hc9, _⟩
        rw [mem_foldl_erase] at hc9
        exact hne_99 (honly _ (dget_mem h99) hc9.1)
      simp only [broadcast_sensor_update, List.count_append, hch99]
      rw [hcount1, hcnt2]
  · intro sid w hw
    simp only [broadcast_sensor_update] at hw
    rcases List.mem_append.mp hw with hw1 | hw2
    · obtain ⟨s0, hupd, hw0, _⟩ := send_to_channel_mem hw1
      exact ⟨_, dget_mem hupd, Or.inl rfl, hw0⟩
    · obtain ⟨s', hdg2, hw', _⟩ := send_to_channel_mem hw2
      obtain ⟨l1, _, hdg⟩ :=
        send_to_channel_channels m "sensor_updates" F ("sensor_" ++ toString sid)
      rw [hdg2] at hdg
      rcases hsid : dget m.channel_subscriptions ("sensor_" ++ toString sid)
        with _ | s0 <;> rw [hsid] at hdg
      · cases hdg
      · simp only [Option.map_some'] at hdg
        injection hdg with hdg
        rw [hdg, mem_foldl_erase] at hw'
        exact ⟨_, dget_mem hsid, Or.inr rfl, hw'.1⟩

/-- Witness for C7 at a concrete registry: user 7 with role
`"traffic_control"` subscribed only to `"sensor_42"`. -/
theorem claim7_witness :
    (broadcast_sensor_update
      (run [Op.register 7 1 "traffic_control", Op.subscribe 7 "sensor_42"]) 42
      ∅).2.count 7 = 1 ∧
    (broadcast_sensor_update
      (run [Op.register 7 1 "traffic_control", Op.subscribe 7 "sensor_42"]) 99
      ∅).2.count 7 = 0 := by
  have h := claim7_sensor_update_only_to_subscribers
    (run [Op.register 7 1 "traffic_control", Op.subscribe 7 "sensor_42"]) 7 ∅ {7}
    (by decide) (by decide) (by decide) (by decide)
  exact ⟨h.1, h.2.1⟩

/-! ## Claim C10: connect sends the confirmation first, after insertion -/

/-- **C10 (confirmed).**  `connect` emits exactly one message to the new
connection — the personal `connection_status` with status `"connected"`
carrying that user id and role — so it precedes any other outbound message,
and the state paired with the emission already holds the connection in the
by-user and by-role indexes and both mappings (the code mutates the indexes
before sending). -/
theorem claim10_connect_confirmation (m : ConnectionManager) (ws : WS)
    (user_id : Int) (role : String) :
    (m.connect ws user_id role).2 =
      [OutMsg.connection_status "connected" user_id role] ∧
    ws ∈ (dget (m.connect ws user_id role).1.active_connections user_id).getD ∅ ∧
    ws ∈ (dget (m.connect ws user_id role).1.role_connections role).getD ∅ ∧
    (m.connect ws user_id role).1.ws_to_user ws = some user_id ∧
    (m.connect ws user_id role).1.ws_to_role ws = some role := by
  refine ⟨rfl, ?_, ?_, by simp [ConnectionManager.connect],
    by simp [ConnectionManager.connect]⟩
  · simp only [ConnectionManager.connect]
    rw [dget_dset]
    simp
  · simp only [ConnectionManager.connect]
    rw [dget_dset]
    simp

/-! ## Claim C6: the message dispatcher -/

/-- The `type` values recognised by `handle_websocket_message`'s if/elif
chain. -/
def recognizedTypes : List String :=
  ["subscribe", "unsubscribe", "acknowledge_alert", "resolve_alert",
   "request_data", "ping"]

/-- `WebSocketService.handle_websocket_message`.  `msgType` is
`message.get("type")` (`none` when the key is missing; the f-string renders
`None` as `"None"`).  What the matched handler does is external to the
dispatch claim, so its outcome is a parameter: `Except.ok (m', emits)` is a
normal return with new registry state `m'` and emissions `emits`, while
`Except.error (m', e)` means the handler raised the exception `e` leaving
the registry in state `m'` — a handler can mutate the registry before
raising (e.g. a `subscribe` whose channel list is `["a", ["b"]]` subscribes
`"a"` and then raises `TypeError` on the unhashable list), and the `except`
branch cannot undo that.  The whole chain sits inside `try/except`, so the
dispatcher is a total function — it never propagates an exception — and on
both error paths it performs no registry mutation of its own (in particular
it never unregisters the connection): it only replies with a personal error
message. -/
def handle_websocket_message (m : ConnectionManager) (ws : WS)
    (msgType : Option String)
    (outcome :
      Except (ConnectionManager × String) (ConnectionManager × List Emit)) :
    ConnectionManager × List Emit :=
  match msgType with
  | some t =>
    if t ∈ recognizedTypes then
      match outcome with
      | .ok r => r
      | .error (m', _) =>
        (m', [Emit.personal ws (OutMsg.error "Internal server error")])
    else
      (m, [Emit.personal ws (OutMsg.error ("Unknown message type: " ++ t))])
  | none => (m, [Emit.personal ws (OutMsg.error "Unknown message type: None")])

/-- **C6 (confirmed).**  The dispatcher never propagates an exception (it is
a total function by construction) and never closes the connection: an
unrecognised (or missing) `type` gets a personal `error` reply naming the
unknown type with the registry untouched, and a handler exception — raised
with the registry in whatever state `m'` the handler left it, possibly
partially mutated — is caught at the dispatch boundary and turned into a
personal `error` reply on top of exactly that state `m'`: the dispatcher
adds no registry mutation of its own and never unregisters, so the
connection remains open. -/
theorem claim6_dispatcher_catches_everything (m : ConnectionManager) (ws : WS)
    (msgType : Option String)
    (outcome :
      Except (ConnectionManager × String) (ConnectionManager × List Emit)) :
    (∀ t, msgType = some t → t ∉ recognizedTypes →
      handle_websocket_message m ws msgType outcome =
        (m, [Emit.personal ws (OutMsg.error ("Unknown message type: " ++ t))])) ∧
    (msgType = none →
      handle_websocket_message m ws msgType outcome =
        (m, [Emit.personal ws (OutMsg.error "Unknown message type: None")])) ∧
    (∀ t m' e, msgType = some t → t ∈ recognizedTypes →
      outcome = Except.error (m', e) →
      handle_websocket_message m ws msgType outcome =
        (m', [Emit.personal ws (OutMsg.error "Internal server error")])) := by
  refine ⟨?_, ?_, ?_⟩
  · rintro t rfl hnr
    simp [handle_websocket_message, hnr]
  · rintro rfl
    rfl
  · rintro t m' e rfl hr rfl
    simp [handle_websocket_message, hr]

/-- Witness for C6: an unknown type gets the error reply naming it, and a
handler that subscribed `"a"` before raising `TypeError` gets the internal
error reply on top of its partially-mutated registry. -/
theorem claim6_witness :
    handle_websocket_message emptyManager 1 (some "bogus")
        (Except.ok (emptyManager, [])) =
      (emptyManager,
        [Emit.personal 1 (OutMsg.error "Unknown message type: bogus")]) ∧
    handle_websocket_message emptyManager 1 (some "subscribe")
        (Except.error (emptyManager.subscribe_to_channel 1 "a", "TypeError")) =
      (emptyManager.subscribe_to_channel 1 "a",
        [Emit.personal 1 (OutMsg.error "Internal server error")]) :=
  ⟨(claim6_dispatcher_catches_everything emptyManager 1 (some "bogus")
      (Except.ok (emptyManager, []))).1 "bogus" rfl (by decide),
   (claim6_dispatcher_catches_everything emptyManager 1 (some "subscribe")
      (Except.error (emptyManager.subscribe_to_channel 1 "a", "TypeError"))).2.2
      "subscribe" (emptyManager.subscribe_to_channel 1 "a") "TypeError" rfl
      (by decide) rfl⟩

/-! ## Claim C3: acknowledging a resolved alert -/

/-- Alert lifecycle states (`schemas.AlertStatus`). -/
inductive AlertStatus where
  | active
  | acknowledged
  | resolved
  | dismissed
  deriving DecidableEq

/-- Modelled from the spec: the persistent `Alert` entity acted on by the
lifecycle handlers.  The `models.py` under `src/` lacks the status and
acknowledgement columns that `schemas.AlertOut`, the alert router and the
WebSocket handlers all require (`models.AlertStatus`, `Alert.status`,
`Alert.acknowledged_by_id`, ...), so the entity follows the spec's §3 alert
lifecycle and the field declarations of `schemas.py`.  Only the fields the
acknowledge handler touches are kept; `acknowledged_at` is an opaque clock
value. -/
structure Alert where
  id : Int
  alert_id : String
  status : AlertStatus
  acknowledged_by_id : Option Int
  acknowledged_at : Option Nat
  acknowledged_notes : String
  deriving DecidableEq

/-- An `AlertAction` audit record as the handler constructs it. -/
structure AlertAction where
  alert_id : Int
  user_id : Int
  action : String
  notes : String
  deriving DecidableEq

/-- The alert storage visible to the handler. -/
structure AlertDB where
  alerts : List Alert
  actions : List AlertAction
  deriving DecidableEq

/-- `.first()` on the handler's alert query: the first stored alert with the
given `alert_id`. -/
def findAlert (db : AlertDB) (aid : String) : Option Alert :=
  db.alerts.find? (fun a => decide (a.alert_id = aid))

/-- The ORM mutates the row returned by `.first()`: replace the first alert
with the given `alert_id`. -/
def updateFirstAlert : List Alert → String → Alert → List Alert
  | [], _, _ => []
  | a :: rest, aid, a' =>
    if a.alert_id = aid then a' :: rest else a :: updateFirstAlert rest aid a'

/-- `WebSocketService._handle_acknowledge_alert`.  `if not user_id: return`
is Python truthiness (user id `0` also returns silently); an unknown alert
id is a silent no-op.  Note: the guard is `if alert:` — only existence, not
status, is checked before the transition. -/
def handleAcknowledgeAlert (m : ConnectionManager) (db : AlertDB) (ws : WS)
    (aid : String) (notes : String) (now : Nat) : AlertDB × List Emit :=
  match m.ws_to_user ws with
  | none => (db, [])
  | some user_id =>
    if user_id = 0 then (db, [])
    else
      match findAlert db aid with
      | none => (db, [])
      | some alert =>
        let alert' := { alert with
          status := AlertStatus.acknowledged
          acknowledged_by_id := some user_id
          acknowledged_at := some now
          acknowledged_notes := notes }
        ({ alerts := updateFirstAlert db.alerts aid alert'
           actions := db.actions ++ [⟨alert.id, user_id, "acknowledge", notes⟩] },
         [Emit.broadcast (OutMsg.alert_acknowledged aid user_id),
          Emit.personal ws (OutMsg.action_success "acknowledge_alert" aid)])

/-- **C3, counterexample.**  Acknowledging an alert whose status is already
`resolved` does change its state — the status becomes `acknowledged`, moving
it out of the terminal state — and does broadcast `alert_acknowledged`:
the handler checks only that the alert exists, not that it is `active`. -/
theorem claim3_counterexample :
    (findAlert
        (handleAcknowledgeAlert (emptyManager.connect 3 2 "operator").1
          ⟨[⟨1, "A-1", AlertStatus.resolved, none, none, ""⟩], []⟩
          3 "A-1" "" 5).1 "A-1").map Alert.status =
      some AlertStatus.acknowledged ∧
    Emit.broadcast (OutMsg.alert_acknowledged "A-1" 2) ∈
      (handleAcknowledgeAlert (emptyManager.connect 3 2 "operator").1
        ⟨[⟨1, "A-1", AlertStatus.resolved, none, none, ""⟩], []⟩
        3 "A-1" "" 5).2 := by
  decide

/-- `find?` over an in-place update of the first matching alert. -/
theorem find?_updateFirstAlert (l : List Alert) (aid : String) (a' : Alert)
    (h : a'.alert_id = aid) :
    (updateFirstAlert l aid a').find? (fun a => decide (a.alert_id = aid)) =
      (l.find? (fun a => decide (a.alert_id = aid))).map (fun _ => a') := by
  induction l with
  | nil => rfl
  | cons a rest ih =>
    by_cases haid : a.alert_id = aid
    · rw [updateFirstAlert, if_pos haid, List.find?_cons, List.find?_cons]
      simp [haid, h]
    · rw [updateFirstAlert, if_neg haid, List.find?_cons, List.find?_cons]
      simp [haid, ih]

/-- **C3 (amended).**  The acknowledge handler's preconditions are only a
truthy (nonzero) user id for the connection and the existence of the alert:
for every existing alert — regardless of its status, including `resolved` —
handling `acknowledge_alert` sets the status to `acknowledged`, stamps the
actor and time, appends an "acknowledge" action record, and emits the
`alert_acknowledged` broadcast followed by a personal `action_success`.
Resolved alerts are thereby moved back out of the terminal state: the
implemented transitions are not monotonic. -/
theorem claim3_acknowledge_ignores_status (m : ConnectionManager) (db : AlertDB)
    (ws : WS) (aid notes : String) (now : Nat) (user_id : Int) (alert : Alert)
    (hu : m.ws_to_user ws = some user_id) (hu0 : user_id ≠ 0)
    (ha : findAlert db aid = some alert) :
    (handleAcknowledgeAlert m db ws aid notes now).2 =
      [Emit.broadcast (OutMsg.alert_acknowledged aid user_id),
       Emit.personal ws (OutMsg.action_success "acknowledge_alert" aid)] ∧
    (handleAcknowledgeAlert m db ws aid notes now).1.actions =
      db.actions ++ [⟨alert.id, user_id, "acknowledge", notes⟩] ∧
    findAlert (handleAcknowledgeAlert m db ws aid notes now).1 aid =
      some { alert with
        status := AlertStatus.acknowledged
        acknowledged_by_id := some user_id
        acknowledged_at := some now
        acknowledged_notes := notes } := by
  have haid : alert.alert_id = aid := by
    have := List.find?_some ha
    simpa using this
  have hres : handleAcknowledgeAlert m db ws aid notes now =
      ({ alerts := updateFirstAlert db.alerts aid { alert with
            status := AlertStatus.acknowledged
            acknowledged_by_id := some user_id
            acknowledged_at := some now
            acknowledged_notes := notes }
         actions := db.actions ++ [⟨alert.id, user_id, "acknowledge", notes⟩] },
       [Emit.broadcast (OutMsg.alert_acknowledged aid user_id),
        Emit.personal ws (OutMsg.action_success "acknowledge_alert" aid)]) := by
    simp only [handleAcknowledgeAlert, hu, if_neg hu0, ha]
  refine ⟨?_, ?_, ?_⟩
  · rw [hres]
  · rw [hres]
  · rw [hres, findAlert]
    simp only
    rw [find?_updateFirstAlert _ _ _ (by simpa using haid)]
    rw [findAlert] at ha
    rw [ha]
    rfl

/-- Witness for the amended C3: the concrete resolved alert of the
counterexample. -/
theorem claim3_witness :
    (handleAcknowledgeAlert (emptyManager.connect 3 2 "operator").1
        ⟨[⟨1, "A-1", AlertStatus.resolved, none, none, ""⟩], []⟩
        3 "A-1" "n" 5).2 =
      [Emit.broadcast (OutMsg.alert_acknowledged "A-1" 2),
       Emit.personal 3 (OutMsg.action_success "acknowledge_alert" "A-1")] ∧
    (handleAcknowledgeAlert (emptyManager.connect 3 2 "operator").1
        ⟨[⟨1, "A-1", AlertStatus.resolved, none, none, ""⟩], []⟩
        3 "A-1" "n" 5).1.actions = [⟨1, 2, "acknowledge", "n"⟩] ∧
    findAlert
        (handleAcknowledgeAlert (emptyManager.connect 3 2 "operator").1
          ⟨[⟨1, "A-1", AlertStatus.resolved, none, none, ""⟩], []⟩
          3 "A-1" "n" 5).1 "A-1" =
      some ⟨1, "A-1", AlertStatus.acknowledged, some 2, some 5, "n"⟩ :=
  claim3_acknowledge_ignores_status (emptyManager.connect 3 2 "operator").1
    ⟨[⟨1, "A-1", AlertStatus.resolved, none, none, ""⟩], []⟩
    3 "A-1" "n" 5 2 ⟨1, "A-1", AlertStatus.resolved, none, none, ""⟩
    (by decide) (by decide) (by decide)

/-! ## Claim C4: the analytics snapshot handler -/

/-- A stored metric as `_send_analytics` reads it: a timestamp in minutes
since an arbitrary epoch (abstracting the `datetime`; truncating to the hour
is division by 60) and a value (`ℚ`, abstracting the float). -/
structure Metric where
  ts : Nat
  value : ℚ
  deriving DecidableEq

/-- One bucket of the analytics response; `timestamp` is the bucket key, the
reading's timestamp truncated to the hour. -/
structure Bucket where
  timestamp : Nat
  avg : ℚ
  min : ℚ
  max : ℚ
  count : Nat
  deriving DecidableEq

/-- `metric.ts.strftime("%Y-%m-%d %H:00:00")`: truncation to the hour. -/
def hourKey (ts : Nat) : Nat :=
  ts / 60

/-- Lines 477–482 of `_send_analytics`: build the `time_series` dict, hour
key to list of values, appending in metric order. -/
def timeSeriesGroups (metrics : List Metric) : List (Nat × List ℚ) :=
  metrics.foldl
    (fun d mtr =>
      dset d (hourKey mtr.ts) (((dget d (hourKey mtr.ts)).getD []) ++ [mtr.value]))
    []

/-- Python `sum(values)`. -/
def listSum (l : List ℚ) : ℚ :=
  l.foldl (fun a b => a + b) 0

/-- Python `min(values)` (the handler only applies it to nonempty lists). -/
def listMin : List ℚ → ℚ
  | [] => 0
  | v :: rest => rest.foldl (fun a b => if b ≤ a then b else a) v

/-- Python `max(values)`. -/
def listMax : List ℚ → ℚ
  | [] => 0
  | v :: rest => rest.foldl (fun a b => if a ≤ b then b else a) v

/-- Lines 485–493: the per-bucket statistics. -/
def bucketStats (g : Nat × List ℚ) : Bucket :=
  { timestamp := g.1
    avg := listSum g.2 / (g.2.length : ℚ)
    min := listMin g.2
    max := listMax g.2
    count := g.2.length }

/-- Insertion into a list of buckets sorted ascending by key (bucket keys
are dict keys, hence distinct). -/
def insertBucket (b : Bucket) : List Bucket → List Bucket
  | [] => [b]
  | c :: rest =>
    if b.timestamp ≤ c.timestamp then b :: c :: rest else c :: insertBucket b rest

/-- Line 500: `sorted(analytics_data, key=...)`, ascending by bucket key.
(The code compares the fixed-format hour strings, whose lexicographic order
is the chronological order modelled by the numeric hour key.) -/
def sortBuckets : List Bucket → List Bucket
  | [] => []
  | b :: rest => insertBucket b (sortBuckets rest)

/-- The grouping/statistics/sorting of `_send_analytics` (lines 476–500),
applied to the metrics of the window. -/
def analyticsTimeSeries (metrics : List Metric) : List Bucket :=
  sortBuckets ((timeSeriesGroups metrics).map bucketStats)

/-- The name `timedelta` as `_send_analytics` resolves it: the module imports
only `datetime` and `timezone` from the `datetime` module
(`websocket_manager.py` line 6) and never imports `timedelta`, so every use
of the name raises `NameError`. -/
def timedeltaLookup : Except String (Nat → Nat) :=
  Except.error "NameError: name timedelta is not defined"

/-- `_send_analytics`: compute the window start (every branch of the
`time_range` chain, including the unrecognized-value fallback, evaluates
`timedelta(...)` — which raises `NameError` because the name is unbound),
then query the metrics of the window and build the bucketed time series. -/
def send_analytics (time_range : String) (metrics : List Metric) (now : Nat) :
    Except String (List Bucket) := do
  let td ← timedeltaLookup
  let start_time :=
    if time_range = "1h" then now - td 1
    else if time_range = "24h" then now - td 24
    else if time_range = "7d" then now - td (24 * 7)
    else now - td 24
  let selected := metrics.filter (fun mtr => decide (start_time ≤ mtr.ts))
  pure (analyticsTimeSeries selected)

/-- **C4 (code bug).**  Every analytics request raises `NameError` — the
module never imports `timedelta` — so the handler never produces the
analytics response the claim (and the spec) describe; the dispatcher's
`except` turns the exception into a personal "Internal server error" reply.
This holds for every `time_range` value, so the 24h fallback, the bucketing
and the sorting of the claim are all unreachable.  (The `NameError` fires
before any registry or storage mutation, so the registry carried by the
exception is `m` itself.) -/
theorem claim4_analytics_always_raises (time_range : String)
    (metrics : List Metric) (now : Nat) (m : ConnectionManager) (ws : WS) :
    send_analytics time_range metrics now =
      Except.error "NameError: name timedelta is not defined" ∧
    handle_websocket_message m ws (some "request_data")
        (((send_analytics time_range metrics now).map
            (fun _ => (m, ([] : List Emit)))).mapError (fun e => (m, e))) =
      (m, [Emit.personal ws (OutMsg.error "Internal server error")]) :=
  ⟨rfl, rfl⟩

/-- What lines 476–500 of `_send_analytics` would produce if execution
reached them, on the spec's own example: metrics at 10:05, 10:50 and 11:05
(minutes 605, 650, 665) with values 1, 3, 5 yield exactly the buckets
10:00 (avg 2, min 1, max 3, count 2) and 11:00 (avg 5, min 5, max 5,
count 1), ascending by bucket key. -/
theorem analyticsTimeSeries_spec_example :
    analyticsTimeSeries [⟨605, 1⟩, ⟨650, 3⟩, ⟨665, 5⟩] =
      [⟨10, 2, 1, 3, 2⟩, ⟨11, 5, 5, 5, 1⟩] := by
  norm_num [analyticsTimeSeries, timeSeriesGroups, sortBuckets, insertBucket,
    bucketStats, listSum, listMin, listMax, hourKey, dset, dget, List.foldl,
    List.find?]

end SmartCity
